import Mathlib

/-!
# whisper-sync: the JNI bridge `whisper_jni.cpp`

A shallow embedding of `app/src/main/cpp/whisper_jni.cpp` and the properties of
its four functions: `cpu_threads_default`, `init`, `fullTranscribe` and `free`.

Conventions of the embedding.

* Data model: `int` and `jint`/`jsize` are 32 bits, `long`, `jlong` and
  pointers are 64 bits (the `arm64-v8a` / `x86_64` Android ABIs).  Machine
  integers are `Int`/`Nat` with explicit wrap-around.
* A pointer is its address, a `Nat`; the null pointer is address `0`.
* A C string is the `String` of its content before the terminating NUL; a
  `const char*` that may be null is an `Option String`.
* A `float` is its IEEE-754 single-precision bit pattern, a `Nat`; the bridge
  only copies floats and never computes with them.
* The inference engine (`whisper.h`) and the JNI environment are not part of
  this repository: they are parameters of the embedding (records of
  functions), and every theorem holds for all of them.  The engine's mutable
  state is threaded explicitly.
* Every bridge function returns, besides its value, the list of engine calls
  it made (in order), the log entries it emitted (in order) and the resulting
  engine state.
-/

namespace WhisperJNI

/-! ## Machine integers -/

/-- The largest `int` value. -/
def INT_MAX : Int := 2147483647

/-- The smallest `int` value. -/
def INT_MIN : Int := -2147483648

/-- The conversion `static_cast<int>(x)` / `(int)x` of an integer of any wider
or unsigned type: the value is reduced modulo `2^32` into the `int` range. -/
def static_cast_int (x : Int) : Int :=
  (x + 2147483648) % 4294967296 - 2147483648

/-- Subtraction of two `int` values.  Signed overflow is undefined behaviour in
C++; it is reported as `none`. -/
def int_sub (a b : Int) : Option Int :=
  if INT_MIN ≤ a - b ∧ a - b ≤ INT_MAX then some (a - b) else none

/-- The conversion `reinterpret_cast<whisper_context*>(jctx)`: the 64-bit
two's-complement pattern of the `jlong`, read as an address. -/
def reinterpret_cast_ptr (jctx : Int) : Nat :=
  (jctx % 18446744073709551616).toNat

/-- The conversion `reinterpret_cast<jlong>(ctx)`: the 64-bit address, read as a
two's-complement signed integer. -/
def reinterpret_cast_jlong (ctx : Nat) : Int :=
  ((ctx : Int) + 9223372036854775808) % 18446744073709551616 - 9223372036854775808

/-- The values a `jlong` can hold. -/
def is_jlong (h : Int) : Prop :=
  -9223372036854775808 ≤ h ∧ h ≤ 9223372036854775807

instance (h : Int) : Decidable (is_jlong h) := by
  unfold is_jlong; infer_instance

/-! ## `cpu_threads_default` (lines 18-31) -/

/-- The function `cpu_threads_default`.

* `sysconf` is the result of `sysconf(_SC_NPROCESSORS_ONLN)` (a `long`), or
  `none` when the macro `_SC_NPROCESSORS_ONLN` is not defined and the block is
  compiled out;
* `hardware_concurrency` is the result of
  `std::thread::hardware_concurrency()` (an `unsigned`).

The result is `none` exactly when the subtraction `n - 1` overflows. -/
def cpu_threads_default (sysconf : Option Int) (hardware_concurrency : Nat) : Option Int :=
  let n : Int := 0
  let n : Int :=
    match sysconf with
    | some v => if v > 0 then static_cast_int v else n
    | none => n
  let n : Int :=
    if n ≤ 0 then
      let hc := hardware_concurrency
      if hc > 0 then static_cast_int (hc : Int) else n
    else n
  let n : Int := if n ≤ 0 then 1 else n
  (int_sub n 1).map (fun d => max 1 d)

/-- The detected processor count as the specification words it: `v` when
`v > 0`, otherwise `hc` when `hc > 0`, otherwise `1`. -/
def spec_detected_count (v : Int) (hc : Nat) : Int :=
  if v > 0 then v else if hc > 0 then (hc : Int) else 1

/-- The thread count as the specification words it:
`max(1, detected_logical_cpu_count - 1)`. -/
def spec_threads (v : Int) (hc : Nat) : Int :=
  max 1 (spec_detected_count v hc - 1)

/-- The detected processor count as the code computes it: the narrowed `v` when
`v > 0` and the narrowed value is positive, otherwise the narrowed `hc` when
`hc > 0` and the narrowed value is positive, otherwise `1`. -/
def narrowed_detected_count (v : Int) (hc : Nat) : Int :=
  if v > 0 ∧ static_cast_int v > 0 then static_cast_int v
  else if hc > 0 ∧ static_cast_int (hc : Int) > 0 then static_cast_int (hc : Int)
  else 1

/-! ## The inference engine and the JNI environment -/

/-- The enumeration `whisper_sampling_strategy` of `whisper.h`. -/
inductive whisper_sampling_strategy where
  | WHISPER_SAMPLING_GREEDY
  | WHISPER_SAMPLING_BEAM_SEARCH
  deriving DecidableEq

/-- The structure `whisper_context_params` of `whisper.h`: the field the bridge
assigns, and all its other fields gathered in `other`. -/
structure whisper_context_params (κ : Type) where
  use_gpu : Bool
  other : κ
  deriving DecidableEq

/-- The structure `whisper_full_params` of `whisper.h`: the fields the bridge
assigns, and all its other fields (the sampling strategy among them) gathered
in `other`.  The three thresholds are `float` bit patterns. -/
structure whisper_full_params (ρ : Type) where
  n_threads : Int
  print_realtime : Bool
  print_progress : Bool
  print_timestamps : Bool
  print_special : Bool
  translate : Bool
  detect_language : Bool
  language : Option String
  no_context : Bool
  no_timestamps : Bool
  max_len : Int
  token_timestamps : Bool
  split_on_word : Bool
  suppress_blank : Bool
  no_speech_thold : Nat
  logprob_thold : Nat
  entropy_thold : Nat
  other : ρ
  deriving DecidableEq

/-- The engine primitives of `whisper.h` the bridge calls.  `σ` is the engine's
state (every loaded context and its last result).  The two segment accessors
read the state and leave it as it is. -/
structure whisper (σ ρ κ : Type) where
  whisper_context_default_params : whisper_context_params κ
  whisper_init_from_file_with_params :
    σ → Option String → whisper_context_params κ → Nat × σ
  whisper_full_default_params : whisper_sampling_strategy → whisper_full_params ρ
  whisper_full : σ → Nat → whisper_full_params ρ → List Nat → Int → Int × σ
  whisper_full_n_segments : σ → Nat → Int
  whisper_full_get_segment_text : σ → Nat → Int → Option String
  whisper_free : σ → Nat → σ

/-- One call of an engine primitive, with its arguments. -/
inductive EngineCall (ρ κ : Type) where
  | context_default_params
  | init_from_file_with_params (path_model : Option String)
      (params : whisper_context_params κ)
  | full_default_params (strategy : whisper_sampling_strategy)
  | full (ctx : Nat) (params : whisper_full_params ρ) (samples : List Nat)
      (n_samples : Int)
  | full_n_segments (ctx : Nat)
  | full_get_segment_text (ctx : Nat) (i_segment : Int)
  | free (ctx : Nat)
  deriving DecidableEq

/-- The JNI functions the bridge calls on arrays and strings.  `α` is the type
of Java `float[]` references.  `GetStringUTFChars` may return null;
`GetFloatArrayRegion a start len` is the list of elements it copies out.
`ReleaseStringUTFChars` only releases memory and `NewStringUTF` creates the
Java string with the given content: a `jstring` result is its content. -/
structure JNIEnv (α : Type) where
  GetStringUTFChars : String → Option String
  GetArrayLength : α → Int
  GetFloatArrayRegion : α → Int → Int → List Nat

/-- The two levels the bridge logs at. -/
inductive LogLevel where
  | ANDROID_LOG_INFO
  | ANDROID_LOG_ERROR
  deriving DecidableEq

/-- One argument of a log call. -/
inductive LogArg where
  | int (v : Int)
  | str (s : String)
  | ptr (p : Nat)
  deriving DecidableEq

/-- One call of `__android_log_print` under the tag `WhisperJNI`: the level, the
format string and the arguments. -/
structure LogEntry where
  level : LogLevel
  fmt : String
  args : List LogArg
  deriving DecidableEq

/-- The macro `LOGI`. -/
def LOGI (fmt : String) (args : List LogArg) : LogEntry :=
  { level := LogLevel.ANDROID_LOG_INFO, fmt := fmt, args := args }

/-- The macro `LOGE`. -/
def LOGE (fmt : String) (args : List LogArg) : LogEntry :=
  { level := LogLevel.ANDROID_LOG_ERROR, fmt := fmt, args := args }

/-- What a bridge function leaves behind: the value it returns, the engine
state, the engine calls it made and the log entries it emitted. -/
structure Ret (σ ρ κ β : Type) where
  value : β
  state : σ
  calls : List (EngineCall ρ κ)
  log : List LogEntry
  deriving DecidableEq

/-! ## `init` (lines 35-53) -/

/-- The function `Java_com_example_whisper_sync_NativeWhisper_init`. -/
def Java_com_example_whisper_sync_NativeWhisper_init {α σ ρ κ : Type}
    (env : JNIEnv α) (eng : whisper σ ρ κ) (st : σ) (jpath : String) :
    Ret σ ρ κ Int :=
  let cpath := env.GetStringUTFChars jpath
  let log0 := [LOGI "init: path=%s" [LogArg.str (cpath.getD "(null)")]]
  let cparams := eng.whisper_context_default_params
  let cparams := { cparams with use_gpu := false }
  let r := eng.whisper_init_from_file_with_params st cpath cparams
  let ctx := r.1
  let calls := [EngineCall.context_default_params,
    EngineCall.init_from_file_with_params cpath cparams]
  if ctx = 0 then
    { value := 0, state := r.2, calls := calls,
      log := log0 ++ [LOGE "init: FAILED (ctx == null)" []] }
  else
    { value := reinterpret_cast_jlong ctx, state := r.2, calls := calls,
      log := log0 ++ [LOGI "init: ctx=%p OK" [LogArg.ptr ctx]] }

/-! ## `fullTranscribe` (lines 57-129) -/

/-- The IEEE-754 single-precision bit pattern of the literal `0.10f`. -/
def f32_0_10 : Nat := 0x3DCCCCCD

/-- The IEEE-754 single-precision bit pattern of the literal `-2.0f`. -/
def f32_neg_2_0 : Nat := 0xC0000000

/-- The IEEE-754 single-precision bit pattern of the literal `-1.0f`. -/
def f32_neg_1_0 : Nat := 0xBF800000

/-- Lines 74-75: the vector `pcm` of `n` floats, value-initialised to `0.0f`
(bit pattern `0`) and then filled by `GetFloatArrayRegion(jpcm, 0, n, _)`. -/
def transcribe_pcm {α : Type} (env : JNIEnv α) (jpcm : α) (n : Int) : List Nat :=
  let region := env.GetFloatArrayRegion jpcm 0 n
  (List.range n.toNat).map (fun i => region.getD i 0)

/-- Lines 80-106: the parameter set of one inference call, the engine's greedy
defaults with the bridge's assignments, for the thread count `n_threads`. -/
def transcribe_params {σ ρ κ : Type} (eng : whisper σ ρ κ) (n_threads : Int) :
    whisper_full_params ρ :=
  let params :=
    eng.whisper_full_default_params whisper_sampling_strategy.WHISPER_SAMPLING_GREEDY
  { params with
    n_threads := n_threads
    print_realtime := false
    print_progress := true
    print_timestamps := true
    print_special := false
    translate := false
    detect_language := false
    language := some "en"
    no_context := true
    no_timestamps := false
    max_len := 0
    token_timestamps := false
    split_on_word := true
    suppress_blank := false
    no_speech_thold := f32_0_10
    logprob_thold := f32_neg_2_0
    entropy_thold := f32_neg_1_0 }

/-- Line 112: the call `whisper_full(ctx, params, pcm.data(), (int)pcm.size())`
of a `fullTranscribe` with handle `jctx` and array `jpcm`, under the thread
count `n_threads`: the return code and the engine state after it. -/
def transcribe_invoke {α σ ρ κ : Type} (env : JNIEnv α) (eng : whisper σ ρ κ)
    (n_threads : Int) (st : σ) (jctx : Int) (jpcm : α) : Int × σ :=
  let pcm := transcribe_pcm env jpcm (env.GetArrayLength jpcm)
  eng.whisper_full st (reinterpret_cast_ptr jctx) (transcribe_params eng n_threads)
    pcm (static_cast_int pcm.length)

/-- Lines 122-125: the loop `for (int i = 0; i < n_segments; ++i)` from the
index `i` on, with `out` collected so far.  `fuel` bounds the number of
iterations; the caller passes as many as the loop can take.  Returns the
string and the accessor calls made. -/
def segment_loop {σ ρ κ : Type} (eng : whisper σ ρ κ) (st : σ) (ctx : Nat)
    (n_segments : Int) : Nat → Int → String → String × List (EngineCall ρ κ)
  | 0, _, out => (out, [])
  | fuel + 1, i, out =>
    if i < n_segments then
      let txt := eng.whisper_full_get_segment_text st ctx i
      let out :=
        match txt with
        | some t => if t ≠ "" then out ++ t else out
        | none => out
      let rest := segment_loop eng st ctx n_segments fuel (i + 1) out
      (rest.1, EngineCall.full_get_segment_text ctx i :: rest.2)
    else (out, [])

/-- The function `Java_com_example_whisper_sync_NativeWhisper_fullTranscribe`.
`sysconf` and `hardware_concurrency` are what the two processor-count queries
return during this call.  The result is `none` when the call runs into
undefined behaviour (an overflowing `n - 1` in `cpu_threads_default`). -/
def Java_com_example_whisper_sync_NativeWhisper_fullTranscribe {α σ ρ κ : Type}
    (env : JNIEnv α) (eng : whisper σ ρ κ)
    (sysconf : Option Int) (hardware_concurrency : Nat)
    (st : σ) (jctx : Int) (jpcm : α) (sample_rate : Int) :
    Option (Ret σ ρ κ String) :=
  let ctx := reinterpret_cast_ptr jctx
  if ctx = 0 then
    some { value := "", state := st, calls := [],
           log := [LOGE "fullTranscribe: ctx is null" []] }
  else
    let n := env.GetArrayLength jpcm
    if n ≤ 0 then
      some { value := "", state := st, calls := [],
             log := [LOGE "fullTranscribe: empty PCM array" []] }
    else
      let pcm := transcribe_pcm env jpcm n
      let log1 := [LOGI "fullTranscribe: samples=%d sr=%d"
        [LogArg.int (static_cast_int pcm.length), LogArg.int (static_cast_int sample_rate)]]
      match cpu_threads_default sysconf hardware_concurrency with
      | none => none
      | some n_threads =>
        let params := transcribe_params eng n_threads
        let log2 := log1 ++ [LOGI "fullTranscribe: calling whisper_full ... (threads=%d)"
          [LogArg.int params.n_threads]]
        let res := transcribe_invoke env eng n_threads st jctx jpcm
        let r := res.1
        let calls2 := [EngineCall.full_default_params
            whisper_sampling_strategy.WHISPER_SAMPLING_GREEDY,
          EngineCall.full ctx params pcm (static_cast_int pcm.length)]
        if r ≠ 0 then
          some { value := "", state := res.2, calls := calls2,
                 log := log2 ++ [LOGE "fullTranscribe: whisper_full returned %d"
                   [LogArg.int r]] }
        else
          let n_segments := eng.whisper_full_n_segments res.2 ctx
          let loop := segment_loop eng res.2 ctx n_segments n_segments.toNat 0 ""
          let out := loop.1
          some { value := out, state := res.2,
                 calls := calls2 ++ [EngineCall.full_n_segments ctx] ++ loop.2,
                 log := log2 ++ [LOGI "fullTranscribe: done, segments=%d, out_len=%d"
                   [LogArg.int n_segments,
                    LogArg.int (static_cast_int (out.utf8ByteSize : Int))]] }

/-! ## `free` (lines 133-140) -/

/-- The function `Java_com_example_whisper_sync_NativeWhisper_free`. -/
def Java_com_example_whisper_sync_NativeWhisper_free {σ ρ κ : Type}
    (eng : whisper σ ρ κ) (st : σ) (jctx : Int) : Ret σ ρ κ Unit :=
  let ctx := reinterpret_cast_ptr jctx
  if ctx ≠ 0 then
    { value := (), state := eng.whisper_free st ctx,
      calls := [EngineCall.free ctx],
      log := [LOGI "free: ctx freed" []] }
  else
    { value := (), state := st, calls := [], log := [] }

/-- The parameter sets passed to `whisper_full`, in call order. -/
def whisper_full_params_of {ρ κ : Type} :
    List (EngineCall ρ κ) → List (whisper_full_params ρ)
  | [] => []
  | EngineCall.full _ params _ _ :: cs => params :: whisper_full_params_of cs
  | _ :: cs => whisper_full_params_of cs

/-- The segment texts the engine reports in the state `st` for the context
`ctx`, in index order `0 .. n_segments - 1`; a null text counts as empty. -/
def reported_texts {σ ρ κ : Type} (eng : whisper σ ρ κ) (st : σ) (ctx : Nat) :
    List String :=
  (List.range (eng.whisper_full_n_segments st ctx).toNat).map
    (fun (i : Nat) => (eng.whisper_full_get_segment_text st ctx (i : Int)).getD "")

/-! ## A concrete engine and environment -/

/-- A JNI environment whose `float[]` references are the arrays themselves. -/
def demo_env : JNIEnv (List Nat) where
  GetStringUTFChars := fun s => some s
  GetArrayLength := fun a => (a.length : Int)
  GetFloatArrayRegion := fun a start len => (a.drop start.toNat).take len.toNat

/-- Default inference parameters of the concrete engine. -/
def demo_full_params : whisper_full_params Unit where
  n_threads := 4
  print_realtime := false
  print_progress := true
  print_timestamps := true
  print_special := false
  translate := false
  detect_language := false
  language := some "en"
  no_context := true
  no_timestamps := false
  max_len := 0
  token_timestamps := false
  split_on_word := false
  suppress_blank := true
  no_speech_thold := 0x3F19999A
  logprob_thold := 0xBF800000
  entropy_thold := 0x4019999A
  other := ()

/-- A concrete engine.  Its state is the list of live context addresses.  The
constructor returns the address `addr` (null when `addr = 0`); `whisper_full`
returns the code `rc`; afterwards the engine reports the segments `segs`. -/
def demo_engine (addr : Nat) (rc : Int) (segs : List (Option String)) :
    whisper (List Nat) Unit Unit where
  whisper_context_default_params := { use_gpu := true, other := () }
  whisper_init_from_file_with_params := fun st _ _ =>
    (addr, if addr = 0 then st else addr :: st)
  whisper_full_default_params := fun _ => demo_full_params
  whisper_full := fun st _ _ _ _ => (rc, st)
  whisper_full_n_segments := fun _ _ => (segs.length : Int)
  whisper_full_get_segment_text := fun _ _ i =>
    if 0 ≤ i then segs.getD i.toNat none else none
  whisper_free := fun st ctx => st.filter (fun c => c ≠ ctx)

/-! ## Lemmas on the integer conversions -/

theorem reinterpret_cast_ptr_zero : reinterpret_cast_ptr 0 = 0 := by
  decide

theorem reinterpret_cast_ptr_ne_zero (h : Int) (hr : is_jlong h) (hz : h ≠ 0) :
    reinterpret_cast_ptr h ≠ 0 := by
  unfold reinterpret_cast_ptr
  unfold is_jlong at hr
  omega

theorem reinterpret_cast_round_trip (p : Nat) (hp : p < 18446744073709551616) :
    reinterpret_cast_ptr (reinterpret_cast_jlong p) = p := by
  unfold reinterpret_cast_ptr reinterpret_cast_jlong
  omega

theorem reinterpret_cast_jlong_eq_zero (p : Nat) (hp : p < 18446744073709551616) :
    reinterpret_cast_jlong p = 0 ↔ p = 0 := by
  unfold reinterpret_cast_jlong
  omega

theorem reinterpret_cast_jlong_range (p : Nat) : is_jlong (reinterpret_cast_jlong p) := by
  unfold reinterpret_cast_jlong is_jlong
  omega

theorem static_cast_int_of_range (x : Int) (h0 : INT_MIN ≤ x) (h1 : x ≤ INT_MAX) :
    static_cast_int x = x := by
  unfold static_cast_int
  unfold INT_MIN at h0
  unfold INT_MAX at h1
  omega

theorem static_cast_int_bounds (x : Int) :
    INT_MIN ≤ static_cast_int x ∧ static_cast_int x ≤ INT_MAX := by
  unfold static_cast_int INT_MIN INT_MAX
  omega

/-- The value `cpu_threads_default` returns, in closed form. -/
theorem cpu_threads_default_some (v : Int) (hc : Nat) :
    cpu_threads_default (some v) hc = some (max 1 (narrowed_detected_count v hc - 1)) := by
  have hv := static_cast_int_bounds v
  have hh := static_cast_int_bounds (hc : Int)
  unfold INT_MIN INT_MAX at hv hh
  unfold cpu_threads_default narrowed_detected_count int_sub
  simp only [INT_MIN, INT_MAX]
  split_ifs <;> simp_all <;> omega

theorem cpu_threads_default_none (hc : Nat) :
    cpu_threads_default none hc =
      some (max 1 ((if hc > 0 ∧ static_cast_int (hc : Int) > 0
        then static_cast_int (hc : Int) else 1) - 1)) := by
  have hh := static_cast_int_bounds (hc : Int)
  unfold INT_MIN INT_MAX at hh
  unfold cpu_threads_default int_sub
  simp only [INT_MIN, INT_MAX]
  split_ifs <;> simp_all <;> omega

/-- Every run of `cpu_threads_default` returns a thread count of at least one
that is an `int` value. -/
theorem cpu_threads_default_total (sysconf : Option Int) (hc : Nat) :
    ∃ r, cpu_threads_default sysconf hc = some r ∧ 1 ≤ r ∧ r ≤ INT_MAX := by
  have hh := static_cast_int_bounds (hc : Int)
  cases sysconf with
  | none =>
    refine ⟨_, cpu_threads_default_none hc, le_max_left _ _, ?_⟩
    unfold INT_MIN INT_MAX at *
    split_ifs <;> omega
  | some v =>
    have hv := static_cast_int_bounds v
    refine ⟨_, cpu_threads_default_some v hc, le_max_left _ _, ?_⟩
    unfold narrowed_detected_count
    unfold INT_MIN INT_MAX at *
    split_ifs <;> omega

/-! ## Lemmas on strings and on the segment loop -/

theorem string_join_cons (a : String) (l : List String) :
    String.join (a :: l) = a ++ String.join l := by
  apply String.ext
  simp [String.join_eq]

theorem string_join_nil : String.join [] = "" := by
  rfl

theorem string_append_eq_empty (a b : String) :
    a ++ b = "" ↔ a = "" ∧ b = "" := by
  constructor
  · intro h
    have h2 : (a ++ b).data = [] := by rw [h]
    rw [String.data_append, List.append_eq_nil] at h2
    exact ⟨String.ext h2.1, String.ext h2.2⟩
  · rintro ⟨rfl, rfl⟩
    rfl

theorem string_join_eq_empty (l : List String) :
    String.join l = "" ↔ ∀ s ∈ l, s = "" := by
  induction l with
  | nil => simp [string_join_nil]
  | cons a l ih =>
    rw [string_join_cons, string_append_eq_empty, ih]
    simp

/-- One pass of the loop body appends the reported text, a null text counting
as empty. -/
theorem loop_body_append (out : String) (txt : Option String) :
    (match txt with
      | some t => if t ≠ "" then out ++ t else out
      | none => out) = out ++ txt.getD "" := by
  cases txt with
  | none => simp
  | some t =>
    by_cases ht : t = ""
    · subst ht; simp
    · simp [ht]

/-- The loop, started at index `i` with exactly the iterations left to go,
appends the texts of the indices `i, i + 1, ..` in order and queries each of
them once. -/
theorem segment_loop_spec {σ ρ κ : Type} (eng : whisper σ ρ κ) (st : σ) (ctx : Nat)
    (n_segments : Int) (fuel : Nat) :
    ∀ (i : Int) (out : String), (i : Int) + fuel = n_segments →
      segment_loop eng st ctx n_segments fuel i out =
        (out ++ String.join ((List.range fuel).map (fun (k : Nat) =>
            (eng.whisper_full_get_segment_text st ctx (i + (k : Int))).getD "")),
         (List.range fuel).map (fun (k : Nat) =>
            (EngineCall.full_get_segment_text ctx (i + (k : Int)) : EngineCall ρ κ))) := by
  induction fuel with
  | zero =>
    intro i out _
    simp [segment_loop, string_join_nil]
  | succ fuel ih =>
    intro i out h
    have hlt : i < n_segments := by push_cast at h; omega
    have hnext : (i + 1 : Int) + fuel = n_segments := by push_cast at h; omega
    rw [segment_loop]
    simp only [hlt, if_true]
    rw [loop_body_append, ih (i + 1) _ hnext]
    rw [List.range_succ_eq_map]
    simp only [List.map_cons, List.map_map, string_join_cons, Nat.cast_zero, add_zero]
    have e : ∀ k : Nat, (i + 1 + (k : Int)) = i + ((k + 1 : Nat) : Int) := by
      intro k; push_cast; ring
    simp only [Function.comp_def, Nat.succ_eq_add_one, e, String.append_assoc]

/-- The loop as `fullTranscribe` starts it: the result is the concatenation of
the reported texts, and the accessor is queried once per index. -/
theorem segment_loop_full {σ ρ κ : Type} (eng : whisper σ ρ κ) (st : σ) (ctx : Nat) :
    segment_loop eng st ctx (eng.whisper_full_n_segments st ctx)
        (eng.whisper_full_n_segments st ctx).toNat 0 "" =
      (String.join (reported_texts eng st ctx),
       (List.range (eng.whisper_full_n_segments st ctx).toNat).map (fun (k : Nat) =>
          (EngineCall.full_get_segment_text ctx (k : Int) : EngineCall ρ κ))) := by
  by_cases hn : 0 ≤ eng.whisper_full_n_segments st ctx
  · have h := segment_loop_spec eng st ctx (eng.whisper_full_n_segments st ctx)
      (eng.whisper_full_n_segments st ctx).toNat 0 "" (by omega)
    rw [h]
    simp [reported_texts]
  · have h0 : (eng.whisper_full_n_segments st ctx).toNat = 0 := by omega
    simp [reported_texts, h0, segment_loop, string_join_nil]

/-- Concatenating the texts of a given segment list, a null text counting as
empty, is concatenating the non-null texts. -/
theorem join_getD_eq_filterMap (segs : List (Option String)) :
    String.join (segs.map (fun o => o.getD "")) = String.join (segs.filterMap id) := by
  induction segs with
  | nil => rfl
  | cons a l ih =>
    cases a with
    | none =>
      simp only [List.map_cons, Option.getD_none, string_join_cons, List.filterMap_cons,
        id_eq, ih]
      exact String.empty_append _
    | some x =>
      simp only [List.map_cons, Option.getD_some, string_join_cons, List.filterMap_cons,
        id_eq, ih]

/-- When an accessor `text` agrees with the list `segs` on its indices, the
texts it reports concatenate to the non-null entries of `segs`. -/
theorem join_texts_eq_filterMap (text : Int → Option String) (segs : List (Option String))
    (htxt : ∀ i : Nat, i < segs.length → text (i : Int) = segs.getD i none) :
    String.join ((List.range segs.length).map (fun (i : Nat) => (text (i : Int)).getD ""))
      = String.join (segs.filterMap id) := by
  rw [← join_getD_eq_filterMap]
  congr 1
  apply List.ext_getElem
  · simp
  · intro i h1 h2
    simp only [List.length_map, List.length_range] at h1
    simp [htxt i h1, List.getD_eq_getElem?_getD, List.getElem?_eq_getElem h1]

/-- The value of `fullTranscribe` when `whisper_full` fails: nothing but the
default-parameter query and the inference call reach the engine. -/
theorem fullTranscribe_engine_failure {α σ ρ κ : Type}
    (env : JNIEnv α) (eng : whisper σ ρ κ) (sysconf : Option Int) (hc : Nat)
    (st : σ) (jctx : Int) (jpcm : α) (sample_rate : Int) (t : Int)
    (hctx : reinterpret_cast_ptr jctx ≠ 0) (hn : 0 < env.GetArrayLength jpcm)
    (ht : cpu_threads_default sysconf hc = some t)
    (hr : (transcribe_invoke env eng t st jctx jpcm).1 ≠ 0) :
    ∃ log, Java_com_example_whisper_sync_NativeWhisper_fullTranscribe env eng sysconf hc
        st jctx jpcm sample_rate =
      some { value := "", state := (transcribe_invoke env eng t st jctx jpcm).2,
             calls := [EngineCall.full_default_params
                 whisper_sampling_strategy.WHISPER_SAMPLING_GREEDY,
               EngineCall.full (reinterpret_cast_ptr jctx) (transcribe_params eng t)
                 (transcribe_pcm env jpcm (env.GetArrayLength jpcm))
                 (static_cast_int
                   (transcribe_pcm env jpcm (env.GetArrayLength jpcm)).length)],
             log := log } := by
  have hn2 : ¬ env.GetArrayLength jpcm ≤ 0 := by omega
  unfold Java_com_example_whisper_sync_NativeWhisper_fullTranscribe
  simp only [hctx, hn2, ht, hr, if_false, ne_eq, not_false_eq_true, if_true]
  exact ⟨_, rfl⟩

/-- The value of `fullTranscribe` when `whisper_full` succeeds: the result is
the concatenation of the reported texts, and the engine sees the
default-parameter query, the inference call, the segment-count query and one
text query per index. -/
theorem fullTranscribe_engine_success {α σ ρ κ : Type}
    (env : JNIEnv α) (eng : whisper σ ρ κ) (sysconf : Option Int) (hc : Nat)
    (st : σ) (jctx : Int) (jpcm : α) (sample_rate : Int) (t : Int)
    (hctx : reinterpret_cast_ptr jctx ≠ 0) (hn : 0 < env.GetArrayLength jpcm)
    (ht : cpu_threads_default sysconf hc = some t)
    (hr : (transcribe_invoke env eng t st jctx jpcm).1 = 0) :
    ∃ log, Java_com_example_whisper_sync_NativeWhisper_fullTranscribe env eng sysconf hc
        st jctx jpcm sample_rate =
      some { value := String.join (reported_texts eng
               (transcribe_invoke env eng t st jctx jpcm).2 (reinterpret_cast_ptr jctx)),
             state := (transcribe_invoke env eng t st jctx jpcm).2,
             calls := [EngineCall.full_default_params
                 whisper_sampling_strategy.WHISPER_SAMPLING_GREEDY,
               EngineCall.full (reinterpret_cast_ptr jctx) (transcribe_params eng t)
                 (transcribe_pcm env jpcm (env.GetArrayLength jpcm))
                 (static_cast_int
                   (transcribe_pcm env jpcm (env.GetArrayLength jpcm)).length),
               EngineCall.full_n_segments (reinterpret_cast_ptr jctx)] ++
               (List.range (eng.whisper_full_n_segments
                   (transcribe_invoke env eng t st jctx jpcm).2
                   (reinterpret_cast_ptr jctx)).toNat).map (fun (k : Nat) =>
                 (EngineCall.full_get_segment_text (reinterpret_cast_ptr jctx) (k : Int) :
                   EngineCall ρ κ)),
             log := log } := by
  have hn2 : ¬ env.GetArrayLength jpcm ≤ 0 := by omega
  unfold Java_com_example_whisper_sync_NativeWhisper_fullTranscribe
  simp only [hctx, hn2, ht, hr, if_false, ne_eq, not_true_eq_false, segment_loop_full]
  exact ⟨_, rfl⟩

/-- The accessor queries of the loop carry no parameter set. -/
theorem whisper_full_params_of_text_queries {ρ κ : Type} (ctx : Nat) (l : List Nat) :
    whisper_full_params_of (l.map (fun (k : Nat) =>
      (EngineCall.full_get_segment_text ctx (k : Int) : EngineCall ρ κ))) = [] := by
  induction l with
  | nil => rfl
  | cons a l ih => simpa [whisper_full_params_of] using ih

/-- Past both guards `fullTranscribe` returns, and `whisper_full` receives
exactly one parameter set, the one of lines 80-106. -/
theorem fullTranscribe_calls_params {α σ ρ κ : Type}
    (env : JNIEnv α) (eng : whisper σ ρ κ) (sysconf : Option Int) (hc : Nat)
    (st : σ) (jctx : Int) (jpcm : α) (sample_rate : Int) (t : Int)
    (hctx : reinterpret_cast_ptr jctx ≠ 0) (hn : 0 < env.GetArrayLength jpcm)
    (ht : cpu_threads_default sysconf hc = some t) :
    ∃ out, Java_com_example_whisper_sync_NativeWhisper_fullTranscribe env eng sysconf hc
        st jctx jpcm sample_rate = some out ∧
      whisper_full_params_of out.calls = [transcribe_params eng t] := by
  by_cases hr : (transcribe_invoke env eng t st jctx jpcm).1 = 0
  · obtain ⟨log, hout⟩ := fullTranscribe_engine_success env eng sysconf hc st jctx jpcm
      sample_rate t hctx hn ht hr
    refine ⟨_, hout, ?_⟩
    simp only [List.cons_append, List.nil_append, whisper_full_params_of, List.append_eq,
      whisper_full_params_of_text_queries]
  · obtain ⟨log, hout⟩ := fullTranscribe_engine_failure env eng sysconf hc st jctx jpcm
      sample_rate t hctx hn ht hr
    refine ⟨_, hout, ?_⟩
    simp only [whisper_full_params_of]

/-- Past both guards `fullTranscribe` returns, and what it returns comes from
applying the engine's `whisper_full` to the decoded context, the parameter set
of lines 80-106 and the copied samples: that call is among the recorded ones
and the only one carrying a parameter set, the state left behind is the state
this application produces, and its return code decides the result. -/
theorem fullTranscribe_applies_engine {α σ ρ κ : Type}
    (env : JNIEnv α) (eng : whisper σ ρ κ) (sysconf : Option Int) (hc : Nat)
    (st : σ) (jctx : Int) (jpcm : α) (sample_rate : Int) (t : Int)
    (hctx : reinterpret_cast_ptr jctx ≠ 0) (hn : 0 < env.GetArrayLength jpcm)
    (ht : cpu_threads_default sysconf hc = some t) :
    ∃ out, Java_com_example_whisper_sync_NativeWhisper_fullTranscribe env eng sysconf hc
        st jctx jpcm sample_rate = some out ∧
      whisper_full_params_of out.calls = [transcribe_params eng t] ∧
      EngineCall.full (reinterpret_cast_ptr jctx) (transcribe_params eng t)
          (transcribe_pcm env jpcm (env.GetArrayLength jpcm))
          (static_cast_int (transcribe_pcm env jpcm (env.GetArrayLength jpcm)).length)
        ∈ out.calls ∧
      out.state = (eng.whisper_full st (reinterpret_cast_ptr jctx) (transcribe_params eng t)
          (transcribe_pcm env jpcm (env.GetArrayLength jpcm))
          (static_cast_int
            (transcribe_pcm env jpcm (env.GetArrayLength jpcm)).length)).2 ∧
      ((eng.whisper_full st (reinterpret_cast_ptr jctx) (transcribe_params eng t)
          (transcribe_pcm env jpcm (env.GetArrayLength jpcm))
          (static_cast_int
            (transcribe_pcm env jpcm (env.GetArrayLength jpcm)).length)).1 ≠ 0 →
        out.value = "") ∧
      ((eng.whisper_full st (reinterpret_cast_ptr jctx) (transcribe_params eng t)
          (transcribe_pcm env jpcm (env.GetArrayLength jpcm))
          (static_cast_int
            (transcribe_pcm env jpcm (env.GetArrayLength jpcm)).length)).1 = 0 →
        out.value = String.join (reported_texts eng out.state (reinterpret_cast_ptr jctx))) := by
  have hinv : transcribe_invoke env eng t st jctx jpcm =
      eng.whisper_full st (reinterpret_cast_ptr jctx) (transcribe_params eng t)
        (transcribe_pcm env jpcm (env.GetArrayLength jpcm))
        (static_cast_int (transcribe_pcm env jpcm (env.GetArrayLength jpcm)).length) := rfl
  rw [← hinv]
  by_cases hr : (transcribe_invoke env eng t st jctx jpcm).1 = 0
  · obtain ⟨log, hout⟩ := fullTranscribe_engine_success env eng sysconf hc st jctx jpcm
      sample_rate t hctx hn ht hr
    refine ⟨_, hout, ?_, ?_, rfl, fun h => absurd hr h, fun _ => rfl⟩
    · simp only [List.cons_append, List.nil_append, whisper_full_params_of, List.append_eq,
        whisper_full_params_of_text_queries]
    · simp
  · obtain ⟨log, hout⟩ := fullTranscribe_engine_failure env eng sysconf hc st jctx jpcm
      sample_rate t hctx hn ht hr
    refine ⟨_, hout, ?_, ?_, rfl, fun _ => rfl, fun h => absurd h hr⟩
    · simp only [whisper_full_params_of]
    · simp

/-! ## The claims on `fullTranscribe` -/

/-- C1: for every audio array, every sample rate, every engine and every
result of the processor-count queries, `fullTranscribe` called with the zero
handle returns the empty string, makes no engine call at all (the list of
engine calls is empty, so there is no `whisper_full`, no segment query and no
`whisper_free`) and leaves the engine state as it was. -/
theorem fullTranscribe_zero_handle {α σ ρ κ : Type}
    (env : JNIEnv α) (eng : whisper σ ρ κ) (sysconf : Option Int) (hc : Nat)
    (st : σ) (jpcm : α) (sample_rate : Int) :
    ∃ out, Java_com_example_whisper_sync_NativeWhisper_fullTranscribe env eng sysconf hc
        st 0 jpcm sample_rate = some out ∧
      out.value = "" ∧ out.calls = [] ∧ out.state = st := by
  refine ⟨{ value := "", state := st, calls := [],
            log := [LOGE "fullTranscribe: ctx is null" []] }, ?_, rfl, rfl, rfl⟩
  unfold Java_com_example_whisper_sync_NativeWhisper_fullTranscribe
  simp [reinterpret_cast_ptr_zero]

/-- C2: for every non-zero handle and every sample rate, `fullTranscribe`
called with an array whose reported length is zero or negative returns the
empty string, makes no engine call and leaves the engine state as it was. -/
theorem fullTranscribe_empty_buffer {α σ ρ κ : Type}
    (env : JNIEnv α) (eng : whisper σ ρ κ) (sysconf : Option Int) (hc : Nat)
    (st : σ) (jctx : Int) (jpcm : α) (sample_rate : Int)
    (hctx : jctx ≠ 0) (hn : env.GetArrayLength jpcm ≤ 0) :
    ∃ out, Java_com_example_whisper_sync_NativeWhisper_fullTranscribe env eng sysconf hc
        st jctx jpcm sample_rate = some out ∧
      out.value = "" ∧ out.calls = [] ∧ out.state = st := by
  have _ := hctx
  unfold Java_com_example_whisper_sync_NativeWhisper_fullTranscribe
  by_cases h0 : reinterpret_cast_ptr jctx = 0
  · simp [h0]
  · simp [h0, hn]

/-- C3: for every `fullTranscribe` call with a non-zero handle and a non-empty
array in which `whisper_full` returns 0, the call returns, and its result is
exactly the concatenation, in index order `0 .. n_segments - 1`, of the segment
texts the engine reports after the call, a null or empty text contributing
nothing and nothing else being added; in particular the segments
`"Hello "`, `"world"` give `"Hello world"` and the segments `""`, `"ok"` give
`"ok"`. -/
theorem fullTranscribe_concatenates {α σ ρ κ : Type}
    (env : JNIEnv α) (eng : whisper σ ρ κ) (sysconf : Option Int) (hc : Nat)
    (st : σ) (jctx : Int) (jpcm : α) (sample_rate : Int) (t : Int)
    (hj : is_jlong jctx) (hctx : jctx ≠ 0) (hn : 0 < env.GetArrayLength jpcm)
    (ht : cpu_threads_default sysconf hc = some t)
    (hr : (transcribe_invoke env eng t st jctx jpcm).1 = 0) :
    ∃ out, Java_com_example_whisper_sync_NativeWhisper_fullTranscribe env eng sysconf hc
        st jctx jpcm sample_rate = some out ∧
      out.value = String.join
        ((List.range (eng.whisper_full_n_segments out.state
            (reinterpret_cast_ptr jctx)).toNat).map (fun (i : Nat) =>
          (eng.whisper_full_get_segment_text out.state
            (reinterpret_cast_ptr jctx) (i : Int)).getD "")) ∧
      (∀ segs : List (Option String),
        eng.whisper_full_n_segments out.state (reinterpret_cast_ptr jctx) = segs.length →
        (∀ i : Nat, i < segs.length →
          eng.whisper_full_get_segment_text out.state (reinterpret_cast_ptr jctx) (i : Int)
            = segs.getD i none) →
        out.value = String.join (segs.filterMap id)) ∧
      (eng.whisper_full_n_segments out.state (reinterpret_cast_ptr jctx) = 2 →
        eng.whisper_full_get_segment_text out.state (reinterpret_cast_ptr jctx) 0
          = some "Hello " →
        eng.whisper_full_get_segment_text out.state (reinterpret_cast_ptr jctx) 1
          = some "world" →
        out.value = "Hello world") ∧
      (eng.whisper_full_n_segments out.state (reinterpret_cast_ptr jctx) = 2 →
        eng.whisper_full_get_segment_text out.state (reinterpret_cast_ptr jctx) 0
          = some "" →
        eng.whisper_full_get_segment_text out.state (reinterpret_cast_ptr jctx) 1
          = some "ok" →
        out.value = "ok") := by
  obtain ⟨log, hout⟩ := fullTranscribe_engine_success env eng sysconf hc st jctx jpcm
    sample_rate t (reinterpret_cast_ptr_ne_zero jctx hj hctx) hn ht hr
  refine ⟨_, hout, rfl, ?_, ?_, ?_⟩
  · intro segs hlen htxt
    simp only [reported_texts, hlen, Int.toNat_ofNat]
    exact join_texts_eq_filterMap _ segs htxt
  · intro h2 h0 h1
    simp only [reported_texts, h2]
    have e : (2 : Int).toNat = 2 := rfl
    simp only [e, List.range_succ, List.range_zero, List.nil_append, List.map_cons,
      List.cons_append, List.map_nil, Nat.cast_zero, Nat.cast_one, h0, h1]
    decide
  · intro h2 h0 h1
    simp only [reported_texts, h2]
    have e : (2 : Int).toNat = 2 := rfl
    simp only [e, List.range_succ, List.range_zero, List.nil_append, List.map_cons,
      List.cons_append, List.map_nil, Nat.cast_zero, Nat.cast_one, h0, h1]
    decide

/-- C4: for every `fullTranscribe` call with a non-zero handle and a non-empty
array in which `whisper_full` returns a non-zero code, the call returns the
empty string whatever segments the engine would report, and the engine calls
made are exactly the default-parameter query and `whisper_full`: neither the
segment-count nor the segment-text accessor is consulted. -/
theorem fullTranscribe_engine_error {α σ ρ κ : Type}
    (env : JNIEnv α) (eng : whisper σ ρ κ) (sysconf : Option Int) (hc : Nat)
    (st : σ) (jctx : Int) (jpcm : α) (sample_rate : Int) (t : Int)
    (hj : is_jlong jctx) (hctx : jctx ≠ 0) (hn : 0 < env.GetArrayLength jpcm)
    (ht : cpu_threads_default sysconf hc = some t)
    (hr : (transcribe_invoke env eng t st jctx jpcm).1 ≠ 0) :
    ∃ out, Java_com_example_whisper_sync_NativeWhisper_fullTranscribe env eng sysconf hc
        st jctx jpcm sample_rate = some out ∧
      out.value = "" ∧
      out.calls = [EngineCall.full_default_params
          whisper_sampling_strategy.WHISPER_SAMPLING_GREEDY,
        EngineCall.full (reinterpret_cast_ptr jctx) (transcribe_params eng t)
          (transcribe_pcm env jpcm (env.GetArrayLength jpcm))
          (static_cast_int (transcribe_pcm env jpcm (env.GetArrayLength jpcm)).length)] ∧
      (∀ c ∈ out.calls, (∀ x, c ≠ EngineCall.full_n_segments x) ∧
        (∀ x i, c ≠ EngineCall.full_get_segment_text x i)) := by
  obtain ⟨log, hout⟩ := fullTranscribe_engine_failure env eng sysconf hc st jctx jpcm
    sample_rate t (reinterpret_cast_ptr_ne_zero jctx hj hctx) hn ht hr
  refine ⟨_, hout, rfl, rfl, ?_⟩
  intro c hmem
  simp only [List.mem_cons, List.mem_singleton, List.not_mem_nil, or_false] at hmem
  rcases hmem with rfl | rfl
  · exact ⟨fun x h => (by cases h), fun x i h => (by cases h)⟩
  · exact ⟨fun x h => (by cases h), fun x i h => (by cases h)⟩

/-- C5, as amended: for every `fullTranscribe` call with a non-zero handle and a
non-empty array, the call returns, and the returned string is empty if and only
if `whisper_full` returned a non-zero code or every segment text the engine
reports for the indices `0 .. n_segments - 1` is null or empty (which is so in
particular when it reports no segment); a non-zero code or a segment count of
zero always gives the empty string. -/
theorem fullTranscribe_empty_iff {α σ ρ κ : Type}
    (env : JNIEnv α) (eng : whisper σ ρ κ) (sysconf : Option Int) (hc : Nat)
    (st : σ) (jctx : Int) (jpcm : α) (sample_rate : Int) (t : Int)
    (hj : is_jlong jctx) (hctx : jctx ≠ 0) (hn : 0 < env.GetArrayLength jpcm)
    (ht : cpu_threads_default sysconf hc = some t) :
    ∃ out, Java_com_example_whisper_sync_NativeWhisper_fullTranscribe env eng sysconf hc
        st jctx jpcm sample_rate = some out ∧
      (out.value = "" ↔
        ((transcribe_invoke env eng t st jctx jpcm).1 ≠ 0 ∨
          ∀ i : Int, 0 ≤ i →
            i < eng.whisper_full_n_segments out.state (reinterpret_cast_ptr jctx) →
            eng.whisper_full_get_segment_text out.state (reinterpret_cast_ptr jctx) i = none ∨
            eng.whisper_full_get_segment_text out.state (reinterpret_cast_ptr jctx) i
              = some "")) ∧
      (((transcribe_invoke env eng t st jctx jpcm).1 ≠ 0 ∨
          eng.whisper_full_n_segments out.state (reinterpret_cast_ptr jctx) = 0) →
        out.value = "") := by
  have hp := reinterpret_cast_ptr_ne_zero jctx hj hctx
  by_cases hr : (transcribe_invoke env eng t st jctx jpcm).1 = 0
  · obtain ⟨log, hout⟩ := fullTranscribe_engine_success env eng sysconf hc st jctx jpcm
      sample_rate t hp hn ht hr
    have key : String.join (reported_texts eng (transcribe_invoke env eng t st jctx jpcm).2
          (reinterpret_cast_ptr jctx)) = "" ↔
        ∀ i : Int, 0 ≤ i →
          i < eng.whisper_full_n_segments (transcribe_invoke env eng t st jctx jpcm).2
            (reinterpret_cast_ptr jctx) →
          eng.whisper_full_get_segment_text (transcribe_invoke env eng t st jctx jpcm).2
            (reinterpret_cast_ptr jctx) i = none ∨
          eng.whisper_full_get_segment_text (transcribe_invoke env eng t st jctx jpcm).2
            (reinterpret_cast_ptr jctx) i = some "" := by
      rw [string_join_eq_empty]
      unfold reported_texts
      constructor
      · intro h i h0 hi
        have hm := h ((eng.whisper_full_get_segment_text
          (transcribe_invoke env eng t st jctx jpcm).2
          (reinterpret_cast_ptr jctx) i).getD "") (by
            rw [List.mem_map]
            refine ⟨i.toNat, ?_, ?_⟩
            · rw [List.mem_range]; omega
            · rw [Int.toNat_of_nonneg h0])
        cases hx : eng.whisper_full_get_segment_text
          (transcribe_invoke env eng t st jctx jpcm).2 (reinterpret_cast_ptr jctx) i with
        | none => exact Or.inl rfl
        | some x =>
          rw [hx] at hm
          simp only [Option.getD_some] at hm
          exact Or.inr (by rw [hm])
      · intro h s hs
        rw [List.mem_map] at hs
        obtain ⟨k, hk, rfl⟩ := hs
        rw [List.mem_range] at hk
        rcases h (k : Int) (by omega) (by omega) with h1 | h1
        · rw [h1]; rfl
        · rw [h1]; rfl
    refine ⟨_, hout, ?_, ?_⟩
    · simp only [key, hr, ne_eq, not_true_eq_false, false_or]
    · intro h
      rcases h with h | h
      · exact absurd hr h
      · simp only [reported_texts] at h ⊢
        rw [h]
        rfl
  · obtain ⟨log, hout⟩ := fullTranscribe_engine_failure env eng sysconf hc st jctx jpcm
      sample_rate t hp hn ht hr
    refine ⟨_, hout, ?_, ?_⟩
    · simp only [hr, ne_eq, not_false_eq_true, true_or]
    · intro _
      rfl

/-- C10: for any two `fullTranscribe` calls that reach the engine (non-zero
handle, non-empty array) under the same results of the processor-count queries,
whatever the handles, the arrays, the sample rates and the engine states are,
both calls return and pass one and the same parameter set to `whisper_full`:
the engine's greedy defaults with the thread count set to the result of
`cpu_threads_default` and the fixed constants assigned (translate off,
language detection off, language `en`, `no_context` on, `max_len` 0, token
timestamps off, `split_on_word` on, `suppress_blank` off, and the print flags
and thresholds), every field the bridge does not assign keeping its default.
That set is the one the engine really receives: in each call the recorded
`whisper_full` call carries it, the engine state the call leaves is the state
`whisper_full` produces when applied to the decoded context, this set and the
copied samples, and the return code of that application decides the result
(empty on a non-zero code, the concatenated segment texts on zero). -/
theorem fullTranscribe_params_fixed {α σ ρ κ : Type}
    (env1 env2 : JNIEnv α) (eng : whisper σ ρ κ) (sysconf : Option Int) (hc : Nat)
    (st1 st2 : σ) (jctx1 jctx2 : Int) (jpcm1 jpcm2 : α) (sample_rate1 sample_rate2 : Int)
    (hj1 : is_jlong jctx1) (hctx1 : jctx1 ≠ 0) (hn1 : 0 < env1.GetArrayLength jpcm1)
    (hj2 : is_jlong jctx2) (hctx2 : jctx2 ≠ 0) (hn2 : 0 < env2.GetArrayLength jpcm2) :
    ∃ t out1 out2 params,
      cpu_threads_default sysconf hc = some t ∧
      Java_com_example_whisper_sync_NativeWhisper_fullTranscribe env1 eng sysconf hc
        st1 jctx1 jpcm1 sample_rate1 = some out1 ∧
      Java_com_example_whisper_sync_NativeWhisper_fullTranscribe env2 eng sysconf hc
        st2 jctx2 jpcm2 sample_rate2 = some out2 ∧
      whisper_full_params_of out1.calls = [params] ∧
      whisper_full_params_of out2.calls = [params] ∧
      params.n_threads = t ∧
      params.translate = false ∧ params.detect_language = false ∧
      params.language = some "en" ∧ params.no_context = true ∧ params.max_len = 0 ∧
      params.token_timestamps = false ∧ params.split_on_word = true ∧
      params.suppress_blank = false ∧
      params.print_realtime = false ∧ params.print_progress = true ∧
      params.print_timestamps = true ∧ params.print_special = false ∧
      params.no_timestamps = false ∧
      params.no_speech_thold = f32_0_10 ∧ params.logprob_thold = f32_neg_2_0 ∧
      params.entropy_thold = f32_neg_1_0 ∧
      params.other = (eng.whisper_full_default_params
        whisper_sampling_strategy.WHISPER_SAMPLING_GREEDY).other ∧
      EngineCall.full (reinterpret_cast_ptr jctx1) params
          (transcribe_pcm env1 jpcm1 (env1.GetArrayLength jpcm1))
          (static_cast_int (transcribe_pcm env1 jpcm1 (env1.GetArrayLength jpcm1)).length)
        ∈ out1.calls ∧
      EngineCall.full (reinterpret_cast_ptr jctx2) params
          (transcribe_pcm env2 jpcm2 (env2.GetArrayLength jpcm2))
          (static_cast_int (transcribe_pcm env2 jpcm2 (env2.GetArrayLength jpcm2)).length)
        ∈ out2.calls ∧
      out1.state = (eng.whisper_full st1 (reinterpret_cast_ptr jctx1) params
          (transcribe_pcm env1 jpcm1 (env1.GetArrayLength jpcm1))
          (static_cast_int
            (transcribe_pcm env1 jpcm1 (env1.GetArrayLength jpcm1)).length)).2 ∧
      out2.state = (eng.whisper_full st2 (reinterpret_cast_ptr jctx2) params
          (transcribe_pcm env2 jpcm2 (env2.GetArrayLength jpcm2))
          (static_cast_int
            (transcribe_pcm env2 jpcm2 (env2.GetArrayLength jpcm2)).length)).2 ∧
      ((eng.whisper_full st1 (reinterpret_cast_ptr jctx1) params
          (transcribe_pcm env1 jpcm1 (env1.GetArrayLength jpcm1))
          (static_cast_int
            (transcribe_pcm env1 jpcm1 (env1.GetArrayLength jpcm1)).length)).1 ≠ 0 →
        out1.value = "") ∧
      ((eng.whisper_full st2 (reinterpret_cast_ptr jctx2) params
          (transcribe_pcm env2 jpcm2 (env2.GetArrayLength jpcm2))
          (static_cast_int
            (transcribe_pcm env2 jpcm2 (env2.GetArrayLength jpcm2)).length)).1 ≠ 0 →
        out2.value = "") ∧
      ((eng.whisper_full st1 (reinterpret_cast_ptr jctx1) params
          (transcribe_pcm env1 jpcm1 (env1.GetArrayLength jpcm1))
          (static_cast_int
            (transcribe_pcm env1 jpcm1 (env1.GetArrayLength jpcm1)).length)).1 = 0 →
        out1.value = String.join
          ((List.range (eng.whisper_full_n_segments out1.state
              (reinterpret_cast_ptr jctx1)).toNat).map (fun (i : Nat) =>
            (eng.whisper_full_get_segment_text out1.state
              (reinterpret_cast_ptr jctx1) (i : Int)).getD ""))) ∧
      ((eng.whisper_full st2 (reinterpret_cast_ptr jctx2) params
          (transcribe_pcm env2 jpcm2 (env2.GetArrayLength jpcm2))
          (static_cast_int
            (transcribe_pcm env2 jpcm2 (env2.GetArrayLength jpcm2)).length)).1 = 0 →
        out2.value = String.join
          ((List.range (eng.whisper_full_n_segments out2.state
              (reinterpret_cast_ptr jctx2)).toNat).map (fun (i : Nat) =>
            (eng.whisper_full_get_segment_text out2.state
              (reinterpret_cast_ptr jctx2) (i : Int)).getD ""))) := by
  obtain ⟨t, ht, _, _⟩ := cpu_threads_default_total sysconf hc
  have hp1 := reinterpret_cast_ptr_ne_zero jctx1 hj1 hctx1
  have hp2 := reinterpret_cast_ptr_ne_zero jctx2 hj2 hctx2
  obtain ⟨out1, ho1, hc1, hm1, hs1, hf1, hk1⟩ := fullTranscribe_applies_engine env1 eng
    sysconf hc st1 jctx1 jpcm1 sample_rate1 t hp1 hn1 ht
  obtain ⟨out2, ho2, hc2, hm2, hs2, hf2, hk2⟩ := fullTranscribe_applies_engine env2 eng
    sysconf hc st2 jctx2 jpcm2 sample_rate2 t hp2 hn2 ht
  exact ⟨t, out1, out2, transcribe_params eng t, ht, ho1, ho2, hc1, hc2,
    rfl, rfl, rfl, rfl, rfl, rfl, rfl, rfl, rfl, rfl, rfl, rfl, rfl, rfl, rfl, rfl, rfl, rfl,
    hm1, hm2, hs1, hs2, hf1, hf2, hk1, hk2⟩

/-! ## The claims on `cpu_threads_default` -/

/-- C6, as amended: for every result `v` of the processor-count query (a `long`)
and every result `hc` of the concurrency hint (an `unsigned`),
`cpu_threads_default` returns `max(1, d - 1)`, where `d` is `v` narrowed to
`int` when `v > 0` and the narrowed value is positive, otherwise `hc` narrowed
to `int` when `hc > 0` and the narrowed value is positive, otherwise `1`;
narrowing leaves every value up to `INT_MAX` as it is, so for `v` and `hc` up
to `INT_MAX` the result is the specified `max(1, d - 1)` with `d` taken from
`v`, then `hc`, then `1`, and whenever `0 < v ≤ INT_MAX` the result is
`max(1, v - 1)` independently of `hc`. -/
theorem cpu_threads_default_value (v : Int) (hc : Nat) :
    cpu_threads_default (some v) hc = some (max 1 (narrowed_detected_count v hc - 1)) ∧
    (v ≤ INT_MAX → (hc : Int) ≤ INT_MAX →
      cpu_threads_default (some v) hc = some (spec_threads v hc)) ∧
    (0 < v → v ≤ INT_MAX → cpu_threads_default (some v) hc = some (max 1 (v - 1))) := by
  refine ⟨cpu_threads_default_some v hc, ?_, ?_⟩
  · intro hv hh
    rw [cpu_threads_default_some]
    unfold spec_threads spec_detected_count narrowed_detected_count
    by_cases h0 : v > 0
    · have e := static_cast_int_of_range v (by unfold INT_MIN; omega) hv
      simp only [h0, e, and_self, if_true]
    · by_cases h1 : hc > 0
      · have e := static_cast_int_of_range (hc : Int) (by unfold INT_MIN; omega) hh
        have h2 : (hc : Int) > 0 := by omega
        simp only [h0, h1, e, h2, false_and, and_self, if_true, if_false]
      · simp only [h0, h1, false_and, if_false]
  · intro h0 hv
    rw [cpu_threads_default_some]
    unfold narrowed_detected_count
    have e := static_cast_int_of_range v (by unfold INT_MIN; omega) hv
    simp only [h0, e, gt_iff_lt, and_self, if_true]

/-- C7: for every value the processor-count query can return (or none, when the
query is compiled out) and every value the concurrency hint can return, zero,
negative and beyond the `int` range included, `cpu_threads_default` returns
(the subtraction `n - 1` does not overflow) and the thread count returned is at
least 1 and at most `INT_MAX`. -/
theorem cpu_threads_default_at_least_one (sysconf : Option Int) (hc : Nat) :
    ∃ r, cpu_threads_default sysconf hc = some r ∧ 1 ≤ r ∧ r ≤ INT_MAX :=
  cpu_threads_default_total sysconf hc

/-! ## The claim on `free` -/

/-- C8: for every handle value (a `jlong`), `free` called with a non-zero handle
makes exactly one engine call, `whisper_free` on the non-null context the
handle decodes to, and leaves the engine in the state that call produces;
called with the zero handle it makes no engine call, emits no log entry (so no
entry saying freed) and leaves the engine state as it was. -/
theorem free_releases_once {σ ρ κ : Type} (eng : whisper σ ρ κ) (st : σ) (jctx : Int)
    (hj : is_jlong jctx) :
    (jctx ≠ 0 →
      reinterpret_cast_ptr jctx ≠ 0 ∧
      (Java_com_example_whisper_sync_NativeWhisper_free eng st jctx).calls
        = [EngineCall.free (reinterpret_cast_ptr jctx)] ∧
      (Java_com_example_whisper_sync_NativeWhisper_free eng st jctx).state
        = eng.whisper_free st (reinterpret_cast_ptr jctx)) ∧
    (jctx = 0 →
      (Java_com_example_whisper_sync_NativeWhisper_free eng st jctx).calls = [] ∧
      (Java_com_example_whisper_sync_NativeWhisper_free eng st jctx).log = [] ∧
      (Java_com_example_whisper_sync_NativeWhisper_free eng st jctx).state = st) := by
  constructor
  · intro hz
    have hp := reinterpret_cast_ptr_ne_zero jctx hj hz
    unfold Java_com_example_whisper_sync_NativeWhisper_free
    simp [hp]
  · intro hz
    subst hz
    unfold Java_com_example_whisper_sync_NativeWhisper_free
    simp [reinterpret_cast_ptr_zero]

/-! ## The claim on `init` -/

/-- C9: for every model path, `init` returns the zero handle if and only if the
engine's context constructor returned the null pointer; when the constructor
returns a context (a non-null 64-bit address), the handle returned is a
non-zero `jlong` and the conversion `fullTranscribe` and `free` apply to it
gives back exactly that address. -/
theorem init_handle_round_trip {α σ ρ κ : Type}
    (env : JNIEnv α) (eng : whisper σ ρ κ) (st : σ) (jpath : String)
    (hptr : (eng.whisper_init_from_file_with_params st (env.GetStringUTFChars jpath)
      { eng.whisper_context_default_params with use_gpu := false }).1
        < 18446744073709551616) :
    ((Java_com_example_whisper_sync_NativeWhisper_init env eng st jpath).value = 0 ↔
      (eng.whisper_init_from_file_with_params st (env.GetStringUTFChars jpath)
        { eng.whisper_context_default_params with use_gpu := false }).1 = 0) ∧
    ((eng.whisper_init_from_file_with_params st (env.GetStringUTFChars jpath)
        { eng.whisper_context_default_params with use_gpu := false }).1 ≠ 0 →
      (Java_com_example_whisper_sync_NativeWhisper_init env eng st jpath).value ≠ 0 ∧
      is_jlong (Java_com_example_whisper_sync_NativeWhisper_init env eng st jpath).value ∧
      reinterpret_cast_ptr
        (Java_com_example_whisper_sync_NativeWhisper_init env eng st jpath).value =
        (eng.whisper_init_from_file_with_params st (env.GetStringUTFChars jpath)
          { eng.whisper_context_default_params with use_gpu := false }).1) := by
  unfold Java_com_example_whisper_sync_NativeWhisper_init
  by_cases h0 : (eng.whisper_init_from_file_with_params st (env.GetStringUTFChars jpath)
      { eng.whisper_context_default_params with use_gpu := false }).1 = 0
  · simp only [h0, if_true, true_iff, ne_eq, not_true_eq_false, false_implies, and_self]
  · have hz := (reinterpret_cast_jlong_eq_zero _ hptr).not.mpr h0
    have hrt := reinterpret_cast_round_trip _ hptr
    have hrg := reinterpret_cast_jlong_range
      (eng.whisper_init_from_file_with_params st (env.GetStringUTFChars jpath)
        { eng.whisper_context_default_params with use_gpu := false }).1
    simp only [h0, if_false, hz, ne_eq, not_false_eq_true, hrt, hrg, and_self,
      true_implies, iff_self]

/-! ## The claims at concrete inputs -/

/-- C2 at a concrete input: handle `4096`, an array of no samples. -/
theorem fullTranscribe_empty_buffer_witness :
    (4096 : Int) ≠ 0 ∧ demo_env.GetArrayLength [] ≤ 0 ∧
    ∃ out, Java_com_example_whisper_sync_NativeWhisper_fullTranscribe demo_env
        (demo_engine 4096 0 [some "never read"]) (some 8) 8 [4096] 4096 [] 16000 = some out ∧
      out.value = "" ∧ out.calls = [] ∧ out.state = [4096] :=
  ⟨by decide, by decide,
    fullTranscribe_empty_buffer demo_env (demo_engine 4096 0 [some "never read"]) (some 8) 8
      [4096] 4096 [] 16000 (by decide) (by decide)⟩

/-- C3 at a concrete input: the engine reports the segments `"Hello "` and
`"world"`, and the call returns `"Hello world"`. -/
theorem fullTranscribe_concatenates_witness :
    ∃ out, Java_com_example_whisper_sync_NativeWhisper_fullTranscribe demo_env
        (demo_engine 4096 0 [some "Hello ", some "world"]) (some 8) 8 [4096] 4096
        [0, 1065353216] 16000 = some out ∧
      out.value = "Hello world" := by
  obtain ⟨out, hout, _, _, hello, _⟩ := fullTranscribe_concatenates demo_env
    (demo_engine 4096 0 [some "Hello ", some "world"]) (some 8) 8 [4096] 4096
    [0, 1065353216] 16000 7 (by decide) (by decide) (by decide) (by decide) (by decide)
  exact ⟨out, hout, hello rfl rfl rfl⟩

/-- C4 at a concrete input: `whisper_full` returns `-3`, and the call returns
the empty string although the engine would report a segment. -/
theorem fullTranscribe_engine_error_witness :
    ∃ out, Java_com_example_whisper_sync_NativeWhisper_fullTranscribe demo_env
        (demo_engine 4096 (-3) [some "stale"]) (some 8) 8 [4096] 4096
        [0, 1065353216] 16000 = some out ∧
      out.value = "" ∧ out.calls.length = 2 := by
  obtain ⟨out, hout, hval, hcalls, _⟩ := fullTranscribe_engine_error demo_env
    (demo_engine 4096 (-3) [some "stale"]) (some 8) 8 [4096] 4096
    [0, 1065353216] 16000 7 (by decide) (by decide) (by decide) (by decide) (by decide)
  exact ⟨out, hout, hval, by rw [hcalls]; rfl⟩

/-- C5 as stated fails: the engine returns 0 from `whisper_full` and reports two
segments, one with a null and one with an empty text; the returned string is
empty although the code is zero and the segment count is not. -/
theorem fullTranscribe_empty_iff_counterexample :
    ∃ out, Java_com_example_whisper_sync_NativeWhisper_fullTranscribe demo_env
        (demo_engine 4096 0 [none, some ""]) (some 8) 8 [4096] 4096
        [0, 1065353216] 16000 = some out ∧
      (transcribe_invoke demo_env (demo_engine 4096 0 [none, some ""]) 7 [4096] 4096
        [0, 1065353216]).1 = 0 ∧
      (demo_engine 4096 0 [none, some ""]).whisper_full_n_segments out.state
        (reinterpret_cast_ptr 4096) = 2 ∧
      ¬ (out.value = "" ↔
        ((transcribe_invoke demo_env (demo_engine 4096 0 [none, some ""]) 7 [4096] 4096
            [0, 1065353216]).1 ≠ 0 ∨
          (demo_engine 4096 0 [none, some ""]).whisper_full_n_segments out.state
            (reinterpret_cast_ptr 4096) = 0)) := by
  refine ⟨_, rfl, ?_, ?_, ?_⟩
  · decide
  · decide
  · decide

/-- C5, as amended, at a concrete input: the engine returns 0 and reports a null
and an empty text, and the returned string is empty. -/
theorem fullTranscribe_empty_iff_witness :
    ∃ out, Java_com_example_whisper_sync_NativeWhisper_fullTranscribe demo_env
        (demo_engine 4096 0 [none, some ""]) (some 8) 8 [4096] 4096
        [0, 1065353216] 16000 = some out ∧
      out.value = "" := by
  obtain ⟨out, hout, hiff, _⟩ := fullTranscribe_empty_iff demo_env
    (demo_engine 4096 0 [none, some ""]) (some 8) 8 [4096] 4096
    [0, 1065353216] 16000 7 (by decide) (by decide) (by decide) (by decide)
  refine ⟨out, hout, hiff.mpr (Or.inr ?_)⟩
  intro i h0 h1
  have h2 : i < 2 := h1
  have h3 : i = 0 ∨ i = 1 := by omega
  rcases h3 with rfl | rfl
  · exact Or.inl rfl
  · exact Or.inr rfl

/-- C10 at a concrete input: two calls with different handles, arrays, sample
rates and engine states on an eight-processor host both pass a parameter set
with seven threads and the language `en`, leave the state the engine produced
and return the text the engine reports. -/
theorem fullTranscribe_params_fixed_witness :
    ∃ out1 out2 params,
      Java_com_example_whisper_sync_NativeWhisper_fullTranscribe demo_env
        (demo_engine 4096 0 [some "a"]) (some 8) 8 [4096] 4096 [0, 1065353216] 16000
        = some out1 ∧
      Java_com_example_whisper_sync_NativeWhisper_fullTranscribe demo_env
        (demo_engine 4096 0 [some "a"]) (some 8) 8 [4096, 8192] (-8192) [1073741824] 44100
        = some out2 ∧
      whisper_full_params_of out1.calls = [params] ∧
      whisper_full_params_of out2.calls = [params] ∧
      params.n_threads = 7 ∧ params.language = some "en" ∧
      out1.state = [4096] ∧ out2.state = [4096, 8192] ∧
      out1.value = "a" ∧ out2.value = "a" := by
  obtain ⟨t, out1, out2, params, ht, h1, h2, hp1, hp2, hthreads, _, _, hlang, _, _, _, _,
      _, _, _, _, _, _, _, _, _, _, _, _, hs1, hs2, _, _, hk1, hk2⟩ :=
    fullTranscribe_params_fixed demo_env demo_env (demo_engine 4096 0 [some "a"])
      (some 8) 8 [4096] [4096, 8192] 4096 (-8192) [0, 1065353216] [1073741824] 16000 44100
      (by decide) (by decide) (by decide) (by decide) (by decide) (by decide)
  have h7 : t = 7 := by
    have e : cpu_threads_default (some 8) 8 = some 7 := by decide
    rw [e] at ht
    exact (Option.some.inj ht).symm
  exact ⟨out1, out2, params, h1, h2, hp1, hp2, by rw [hthreads, h7], hlang,
    hs1.trans rfl, hs2.trans rfl, (hk1 rfl).trans rfl, (hk2 rfl).trans rfl⟩

/-- C6 as stated fails.  The query result `2^32` is positive, yet narrowed to
`int` it is `0`: the code falls back to the hint and returns `7` for the hint
`8` and `3` for the hint `4`, where the claim gives `2^32 - 1` whatever the
hint.  The hint `2^31` narrowed to `int` is negative: after a failed query the
code returns `1`, where the claim gives `2^31 - 1`. -/
theorem cpu_threads_default_counterexample :
    cpu_threads_default (some 4294967296) 8 = some 7 ∧
    cpu_threads_default (some 4294967296) 4 = some 3 ∧
    spec_threads 4294967296 8 = 4294967295 ∧
    cpu_threads_default (some 4294967296) 8 ≠ some (spec_threads 4294967296 8) ∧
    cpu_threads_default (some (-1)) 2147483648 = some 1 ∧
    spec_threads (-1) 2147483648 = 2147483647 ∧
    cpu_threads_default (some (-1)) 2147483648 ≠ some (spec_threads (-1) 2147483648) := by
  decide

/-- C6, as amended, at a concrete input: eight processors reported, and the
result is seven whatever the hint. -/
theorem cpu_threads_default_value_witness :
    (0 : Int) < 8 ∧ (8 : Int) ≤ INT_MAX ∧
    cpu_threads_default (some 8) 2 = some (max 1 (8 - 1)) ∧
    cpu_threads_default (some 8) 2 = some 7 :=
  ⟨by decide, by decide, (cpu_threads_default_value 8 2).2.2 (by decide) (by decide),
    by decide⟩

/-- C8 at a concrete input: freeing the handle `4096` releases the context at
address `4096`, once. -/
theorem free_releases_once_witness :
    is_jlong 4096 ∧ (4096 : Int) ≠ 0 ∧
    (Java_com_example_whisper_sync_NativeWhisper_free (demo_engine 4096 0 []) [4096, 8192]
      4096).calls = [EngineCall.free 4096] ∧
    (Java_com_example_whisper_sync_NativeWhisper_free (demo_engine 4096 0 []) [4096, 8192]
      4096).state = [8192] := by
  have h := (free_releases_once (demo_engine 4096 0 []) [4096, 8192] 4096 (by decide)).1
    (by decide)
  exact ⟨by decide, by decide, h.2.1, by decide⟩

/-- C9 at a concrete input: the constructor returns the address `2^63 + 4096`,
the handle is the negative `jlong` with that bit pattern, and it decodes to the
same address. -/
theorem init_handle_round_trip_witness :
    (Java_com_example_whisper_sync_NativeWhisper_init demo_env
      (demo_engine 9223372036854779904 0 []) [] "model.bin").value = -9223372036854771712 ∧
    reinterpret_cast_ptr (Java_com_example_whisper_sync_NativeWhisper_init demo_env
      (demo_engine 9223372036854779904 0 []) [] "model.bin").value = 9223372036854779904 := by
  have h := (init_handle_round_trip demo_env (demo_engine 9223372036854779904 0 []) []
    "model.bin" (by decide)).2 (by decide)
  exact ⟨by decide, h.2.2⟩

end WhisperJNI
